import Mathlib

/-!
Verification of `build-utils/lint.py`, a pylint/astroid-based linter for
lark grammar literals.  The Python module is shallowly embedded: the
relevant astroid node shapes become Lean structures, the checker
functions and the `check_grammar` scanner become executable Lean
functions, and Python exceptions surface as `Except` errors.
-/

set_option autoImplicit false

namespace LarkLint

/-- A Python runtime exception, as raised while the scanner generator in
`check_grammar` is being consumed.  `runtimeError` stands for the
`RuntimeError` that PEP 479 turns a `StopIteration` into when `next` is
called on an exhausted iterator inside a generator. -/
inductive PyErr where
  | attributeError
  | indexError
  | runtimeError
  deriving Repr, DecidableEq

/-- A Python constant value, as held by an astroid `Const` node's `.value`
field.  Only the shapes relevant to the linter are modelled: string
constants (the supported grammar literals), integers and `None` as
representative non-string constants. -/
inductive PyValue where
  | str (s : String)
  | int (n : Int)
  | noneVal
  deriving Repr, DecidableEq

/-- An astroid node as produced by `first_argument.infer()` at line 43 of
`lint.py`: it offers a `.value` field (present on `Const` nodes only —
`none` models a node without that attribute, so that reading it raises
`AttributeError`) and a `.lineno` recording its absolute source line. -/
structure InferredNode where
  value : Option PyValue
  lineno : Int
  deriving Repr, DecidableEq

/-- An argument sub-node of a call expression, offering the host's
best-effort constant inference: `inferred` is the sequence the astroid
`infer()` generator would yield for it, in order. -/
structure ArgNode where
  inferred : List InferredNode
  deriving Repr, DecidableEq

/-- The callee expression of a call: a bare name (`Lark(...)`, astroid
`Name`, which has a `.name` field) or an attribute access
(`lark.Lark(...)`, astroid `Attribute`, which has `.expr` and `.attrname`
but no `.name` field). -/
inductive FuncExpr where
  | name (id : String)
  | attribute (baseName : String) (attrname : String)
  deriving Repr, DecidableEq

/-- An astroid `Call` node, the node class `check_grammar` is registered
for via `@group.check(astroid.node_classes.Call)`.  `lineno` is the call
expression's own source line (recorded to show the scanner never uses
it). -/
structure CallNode where
  func : FuncExpr
  args : List ArgNode
  lineno : Int
  deriving Repr, DecidableEq

/-- A pyglint message as built by `pyglint.message(problem=..., node=...,
line=..., col_offset=..., identifier=...)`: the problem name, the context
node, the (grammar-relative, until remapped) line, the column offset and
the interpolated `identifier` field. -/
structure Message where
  problem : String
  node : InferredNode
  line : Int
  col : Nat
  identifier : String
  deriving Repr, DecidableEq

/-- The characters Python's `str.splitlines` treats as line boundaries:
`\n`, `\r` (with `\r\n` counting as a single break), `\v`, `\f`,
`\x1c`–`\x1e`, `\x85`, U+2028 and U+2029. -/
def isLineBoundary (c : Char) : Bool :=
  c = '\n' || c = '\r' || c = '\x0b' || c = '\x0c' ||
    c = '\x1c' || c = '\x1d' || c = '\x1e' ||
    c = '\u0085' || c = '\u2028' || c = '\u2029'

/-- `str.splitlines`: split at every line boundary, treating `\r\n` as
one break (the `afterCR` flag skips the `\n` of a preceding `\r`);
`"a\nb\n"` gives `["a", "b"]`, `"a\r\nb"` gives `["a", "b"]`, `""` gives
`[]`, a final fragment without a trailing boundary is kept. -/
def splitLinesAux : Bool → List Char → List Char → List String
  | _, [], acc => if acc.isEmpty then [] else [String.mk acc.reverse]
  | afterCR, c :: rest, acc =>
    if afterCR && (c == '\n') then splitLinesAux false rest acc
    else if isLineBoundary c then
      String.mk acc.reverse :: splitLinesAux (c == '\r') rest []
    else splitLinesAux false rest (c :: acc)

/-- `grammar.splitlines()` from lines 81 and 96 of `lint.py`. -/
def splitLines (s : String) : List String :=
  splitLinesAux false s.data []

/-- `grammar.count("\n")` from line 51 of `lint.py`. -/
def countNewlines (s : String) : Nat :=
  s.data.count '\n'

/-- Whether every line boundary occurring in `s` is a plain `\n` — the
only boundary the remap's `grammar.count("\n")` accounts for. -/
def onlyNewlineBoundaries (s : String) : Bool :=
  s.data.all (fun c => !isLineBoundary c || c = '\n')

/-- Python's `enumerate`, pairing each line with its 0-based index. -/
def enumFromIdx {α : Type} : Nat → List α → List (Nat × α)
  | _, [] => []
  | i, x :: xs => (i, x) :: enumFromIdx (i + 1) xs

/-- The metasyntactic identifiers matched by the regex
`(foo|bar|baz|quux)` at line 82 of `lint.py`, alternatives in order. -/
def metaPatterns : List String := ["foo", "bar", "baz", "quux"]

/-- The first pattern in `pats` that occurs at the head of `cs` (regex
alternation tries alternatives left to right). -/
def firstPrefixMatch (pats : List String) (cs : List Char) : Option String :=
  pats.find? (fun p => p.data.isPrefixOf cs)

/-- `re.finditer` for an alternation of literal patterns: scan left to
right, at each position try the alternatives in order, record a
`(start, matched)` pair on success and resume after the match
(non-overlapping matches).  The recursion is driven by a fuel argument
so that it is structural; every alternative is nonempty, so each step
consumes at least one character and fuel equal to the line length is
never exhausted. -/
def findIterAux (pats : List String) : Nat → List Char → Nat → List (Nat × String)
  | 0, _, _ => []
  | _ + 1, [], _ => []
  | fuel + 1, c :: rest, pos =>
    match firstPrefixMatch pats (c :: rest) with
    | some p => (pos, p) :: findIterAux pats fuel ((c :: rest).drop p.length) (pos + p.length)
    | none => findIterAux pats fuel rest (pos + 1)

/-- `re.finditer("(foo|bar|baz|quux)", line)` with match start and group 1. -/
def findIter (pats : List String) (line : String) : List (Nat × String) :=
  findIterAux pats line.data.length line.data 0

/-- The messages `metasyntactic_names` yields for one `(lineno, line)`
pair of the enumeration: one `bad-name` message per regex match, at the
match's start column, with the matched text as `identifier`. -/
def metaLineMsgs (node : InferredNode) (lineno : Nat) (line : String) : List Message :=
  (findIter metaPatterns line).map (fun m => ⟨"bad-name", node, (lineno : Int), m.1, m.2⟩)

/-- The checker `metasyntactic_names` (lines 78–89 of `lint.py`): for
each line of `grammar.splitlines()`, yield a `BAD_NAME` message for every
match of `(foo|bar|baz|quux)`. -/
def metasyntactic_names (grammar : String) (node : InferredNode) : List Message :=
  ((enumFromIdx 0 (splitLines grammar)).map (fun p => metaLineMsgs node p.1 p.2)).flatten

/-- A word character for the purposes of the `\b` boundary in the regex
`\b([A-Za-z])\b` (ASCII fragment of Python's `\w`). -/
def isWordChar (c : Char) : Bool :=
  c.isAlpha || c.isDigit || c = '_'

/-- Whether the character before the current position (if any) breaks a
word boundary. -/
def boundaryBefore : Option Char → Bool
  | Option.none => true
  | some p => !isWordChar p

/-- Whether the character after the current position (if any) breaks a
word boundary. -/
def boundaryAfter : List Char → Bool
  | [] => true
  | n :: _ => !isWordChar n

/-- `re.finditer(r"\b([A-Za-z])\b", line)`: every position holding a
single letter flanked by word boundaries (single-character matches never
overlap, so this scan coincides with `finditer`). -/
def shortIterAux : Option Char → List Char → Nat → List (Nat × Char)
  | _, [], _ => []
  | prev, c :: rest, pos =>
    if c.isAlpha && boundaryBefore prev && boundaryAfter rest then
      (pos, c) :: shortIterAux (some c) rest (pos + 1)
    else
      shortIterAux (some c) rest (pos + 1)

/-- The messages `short_names` yields for one `(lineno, line)` pair. -/
def shortLineMsgs (node : InferredNode) (lineno : Nat) (line : String) : List Message :=
  (shortIterAux Option.none line.data 0).map
    (fun m => ⟨"bad-name", node, (lineno : Int), m.1, String.mk [m.2]⟩)

/-- The checker `short_names` (lines 92–104 of `lint.py`): for each line
of `grammar.splitlines()`, yield a `BAD_NAME` message for every match of
`\b([A-Za-z])\b`. -/
def short_names (grammar : String) (node : InferredNode) : List Message :=
  ((enumFromIdx 0 (splitLines grammar)).map (fun p => shortLineMsgs node p.1 p.2)).flatten

/-- The type of a registered checker function: `(grammar text, context
node) → finding sequence`, the Python annotation being
`(grammar: str, node) -> t.Iterator[pyglint.Message]`. -/
abbrev Checker := String → InferredNode → List Message

/-- `registry.functions` after module load: `GrammarCheckerRegistry.checker`
appends, and the two decorated checkers are registered in source order. -/
def registryFunctions : List Checker :=
  [metasyntactic_names, short_names]

/-- Line 51 of `lint.py`:
`attr.evolve(msg, line=msg.line + node.lineno - grammar.count("\n"))` —
a copy of the message with only `line` replaced. -/
def remapLine (m : Message) (lineno : Int) (c : Nat) : Message :=
  ⟨m.problem, m.node, m.line + lineno - (c : Int), m.col, m.identifier⟩

/-- The checker-dispatch loop of lines 49–50: invoke each registered
function in registration order on the grammar text and context node and
concatenate the finding sequences. -/
def runAll : List Checker → String → InferredNode → List Message
  | [], _, _ => []
  | f :: fs, g, n => f g n ++ runAll fs g n

/-- `check_grammar` (lines 28–52 of `lint.py`), parameterized by the
registry contents, with full iteration of the generator as an `Except`.
The guard `isinstance(node, Attribute)` at line 31 tests the `Call` node
itself, never its callee, so it is always false and lines 32–35 are dead;
control always reaches line 38, where `node.func.name` raises
`AttributeError` whenever the callee is an `Attribute` (which has
`attrname` and `expr` fields but no `name`).  `node.args[0]` raises
`IndexError` on an empty argument list; `next(first_argument.infer())`
raises `RuntimeError` (PEP 479) when inference yields nothing;
`node.value` raises `AttributeError` on a node without that field; and a
non-string grammar value raises `AttributeError` at the first registered
checker's `grammar.splitlines()` call (both registered checkers call it
before yielding anything; with no checkers registered the loop body never
runs). -/
def checkGrammarWith (fs : List Checker) (node : CallNode) : Except PyErr (List Message) :=
  match node.func with
  | .attribute _ _ => .error .attributeError
  | .name id =>
    if id ≠ "Lark" then .ok []
    else
      match node.args with
      | [] => .error .indexError
      | arg :: _ =>
        match arg.inferred with
        | [] => .error .runtimeError
        | inf :: _ =>
          match inf.value with
          | Option.none => .error .attributeError
          | some (.str g) =>
            .ok ((runAll fs g inf).map (fun m => remapLine m inf.lineno (countNewlines g)))
          | some _ => if fs.isEmpty then .ok [] else .error .attributeError

/-- `check_grammar` with the registry as populated at module load. -/
def check_grammar (node : CallNode) : Except PyErr (List Message) :=
  checkGrammarWith registryFunctions node

/-- Consuming the combined finding generator of lines 49–52 up to its
first element: the registered checkers are invoked in order until the
first one whose sequence is nonempty, and later checkers are never
started.  The first component is the element obtained (if any), the
second counts how many checker functions were invoked. -/
def firstFinding : List Checker → String → InferredNode → Option Message × Nat
  | [], _, _ => (Option.none, 0)
  | f :: fs, g, n =>
    match f g n with
    | [] => ((firstFinding fs g n).1, (firstFinding fs g n).2 + 1)
    | m :: _ => (some m, 1)

/-! Concrete sample inputs, used to instantiate the theorems below.
`sampleGrammar` is the spec's end-to-end grammar text `"foo: \"bar\"\n"`,
resolved from a literal node at absolute source line 3. -/

/-- The end-to-end scenario's grammar text. -/
def sampleGrammar : String := "foo: \"bar\"\n"

/-- A literal node holding `sampleGrammar`, reported at source line 3. -/
def sampleInferred : InferredNode := ⟨some (PyValue.str sampleGrammar), 3⟩

/-- The first (and only) positional argument of the sample call, whose
inference resolves to `sampleInferred`. -/
def sampleArg : ArgNode := ⟨[sampleInferred]⟩

/-- A bare `Lark(...)` call whose argument resolves to `sampleInferred`. -/
def sampleCall : CallNode := ⟨FuncExpr.name "Lark", [sampleArg], 1⟩

/-- The `foo` finding as emitted by `metasyntactic_names` (grammar-relative). -/
def fooRaw : Message := ⟨"bad-name", sampleInferred, 0, 0, "foo"⟩

/-- The `bar` finding as emitted by `metasyntactic_names` (grammar-relative). -/
def barRaw : Message := ⟨"bad-name", sampleInferred, 0, 6, "bar"⟩

/-- The `foo` finding after remapping with `lineno = 3` and one newline. -/
def fooMapped : Message := ⟨"bad-name", sampleInferred, 2, 0, "foo"⟩

/-- The `bar` finding after remapping with `lineno = 3` and one newline. -/
def barMapped : Message := ⟨"bad-name", sampleInferred, 2, 6, "bar"⟩

/-- Grammar text whose two lines are separated by a carriage return — a
line boundary `str.splitlines` honours but `count("\n")` does not. -/
def crGrammar : String := "x\ry"

/-- A literal node holding `crGrammar`, reported at source line 1 (the
literal spans no newline, so line 1 is its last line and the validity
hypothesis `countNewlines < lineno` holds with `0 < 1`). -/
def crInferred : InferredNode := ⟨some (PyValue.str crGrammar), 1⟩

/-- A bare `Lark(...)` call whose argument resolves to `crInferred`. -/
def crCall : CallNode := ⟨FuncExpr.name "Lark", [⟨[crInferred]⟩], 1⟩

/-- A call `parse(...)` to a name other than `Lark`. -/
def otherCall : CallNode := ⟨FuncExpr.name "parse", [⟨[⟨some (PyValue.str "foo\n"), 2⟩]⟩], 2⟩

/-- An attribute call `obj.method(...)`, unrelated to grammar construction. -/
def methodCall : CallNode := ⟨FuncExpr.attribute "obj" "method", [⟨[⟨some (PyValue.str "foo\n"), 2⟩]⟩], 2⟩

/-- The attribute call `lark.Lark(...)` with a perfectly resolvable
string-literal grammar argument. -/
def larkAttrCall : CallNode :=
  ⟨FuncExpr.attribute "lark" "Lark", [⟨[⟨some (PyValue.str "start: a\n"), 5⟩]⟩], 5⟩

/-! Helper lemmas. -/

lemma mem_enumFromIdx {α : Type} {k i : Nat} {x : α} {l : List α}
    (h : (i, x) ∈ enumFromIdx k l) : i < k + l.length := by
  induction l generalizing k with
  | nil => simp [enumFromIdx] at h
  | cons y ys ih =>
    simp only [enumFromIdx, List.mem_cons, Prod.mk.injEq] at h
    rcases h with ⟨rfl, _⟩ | h
    · simp only [List.length_cons]
      omega
    · have := ih h
      simp only [List.length_cons]
      omega

lemma splitLinesAux_length : ∀ (cs : List Char),
    (∀ c ∈ cs, isLineBoundary c = true → c = '\n') →
    ∀ (b : Bool) (acc : List Char),
    (splitLinesAux b cs acc).length ≤ cs.count '\n' + 1 := by
  intro cs
  induction cs with
  | nil =>
    intro _ b acc
    simp only [splitLinesAux]
    split <;> simp
  | cons c rest ih =>
    intro h b acc
    have hrest : ∀ c2 ∈ rest, isLineBoundary c2 = true → c2 = '\n' :=
      fun c2 hm2 => h c2 (List.mem_cons_of_mem _ hm2)
    have hcount : rest.count '\n' ≤ (c :: rest).count '\n' := by
      by_cases hc : c = '\n'
      · subst hc
        rw [List.count_cons_self]
        omega
      · rw [List.count_cons_of_ne (Ne.symm hc)]
    simp only [splitLinesAux]
    split
    · have h1 := ih hrest false acc
      omega
    · split
      · rename_i hbd
        have hc : c = '\n' := h c (List.mem_cons_self _ _) hbd
        subst hc
        rw [List.count_cons_self]
        have h1 := ih hrest (('\n' : Char) == '\r') []
        simp only [List.length_cons]
        omega
      · rename_i hbd
        have hc : c ≠ '\n' := by
          intro hcc
          exact hbd (hcc ▸ (by decide : isLineBoundary '\n' = true))
        rw [List.count_cons_of_ne (Ne.symm hc)]
        exact ih hrest false (c :: acc)

lemma splitLines_length (g : String) (h : onlyNewlineBoundaries g = true) :
    (splitLines g).length ≤ countNewlines g + 1 := by
  apply splitLinesAux_length
  intro c hc hb
  have h2 := List.all_eq_true.mp h c hc
  simp only [hb, Bool.not_true, Bool.false_or, decide_eq_true_eq] at h2
  exact h2

lemma metaLineMsgs_line {node : InferredNode} {lineno : Nat} {line : String} {m : Message}
    (hm : m ∈ metaLineMsgs node lineno line) : m.line = (lineno : Int) := by
  simp only [metaLineMsgs, List.mem_map] at hm
  obtain ⟨p, _, rfl⟩ := hm
  rfl

lemma shortLineMsgs_line {node : InferredNode} {lineno : Nat} {line : String} {m : Message}
    (hm : m ∈ shortLineMsgs node lineno line) : m.line = (lineno : Int) := by
  simp only [shortLineMsgs, List.mem_map] at hm
  obtain ⟨p, _, rfl⟩ := hm
  rfl

lemma metasyntactic_line_bound {g : String} {n : InferredNode} {m : Message}
    (hm : m ∈ metasyntactic_names g n) :
    0 ≤ m.line ∧ m.line < ((splitLines g).length : Int) := by
  simp only [metasyntactic_names, List.mem_flatten, List.mem_map] at hm
  obtain ⟨msgs, ⟨⟨i, line⟩, hp, rfl⟩, hmm⟩ := hm
  have hl := metaLineMsgs_line hmm
  have hb : i < 0 + (splitLines g).length := mem_enumFromIdx hp
  rw [hl]
  omega

lemma short_line_bound {g : String} {n : InferredNode} {m : Message}
    (hm : m ∈ short_names g n) :
    0 ≤ m.line ∧ m.line < ((splitLines g).length : Int) := by
  simp only [short_names, List.mem_flatten, List.mem_map] at hm
  obtain ⟨msgs, ⟨⟨i, line⟩, hp, rfl⟩, hmm⟩ := hm
  have hl := shortLineMsgs_line hmm
  have hb : i < 0 + (splitLines g).length := mem_enumFromIdx hp
  rw [hl]
  omega

lemma runAll_registry (g : String) (n : InferredNode) :
    runAll registryFunctions g n = metasyntactic_names g n ++ short_names g n := by
  simp [runAll, registryFunctions]

lemma runAll_registry_line_bound {g : String} {n : InferredNode} {m : Message}
    (hm : m ∈ runAll registryFunctions g n) :
    0 ≤ m.line ∧ m.line < ((splitLines g).length : Int) := by
  rw [runAll_registry, List.mem_append] at hm
  rcases hm with h | h
  · exact metasyntactic_line_bound h
  · exact short_line_bound h

lemma checkGrammarWith_ok (fs : List Checker) (c : CallNode) (a : ArgNode)
    (rest : List ArgNode) (i : InferredNode) (irest : List InferredNode) (g : String)
    (hf : c.func = FuncExpr.name "Lark") (ha : c.args = a :: rest)
    (hi : a.inferred = i :: irest) (hv : i.value = some (PyValue.str g)) :
    checkGrammarWith fs c =
      Except.ok ((runAll fs g i).map (fun m => remapLine m i.lineno (countNewlines g))) := by
  obtain ⟨cf, cargs, cl⟩ := c
  obtain ⟨ai⟩ := a
  obtain ⟨iv, il⟩ := i
  simp only at hf ha hi hv
  subst hf ha hi hv
  rfl

lemma firstFinding_fst (cs : List Checker) (g : String) (n : InferredNode) :
    (firstFinding cs g n).1 = (runAll cs g n).head? := by
  induction cs with
  | nil => rfl
  | cons f fs ih =>
    cases hf : f g n with
    | nil => simp [firstFinding, runAll, hf, ih]
    | cons m ms => simp [firstFinding, runAll, hf]

/-! Claim theorems. -/

/-- C1: for every Finding with grammar-relative line `L = m.line`
(0-indexed) produced by the registry for a grammar text `g` whose
line-count term is `C = countNewlines g` (the code's
`grammar.count("\n")`, which equals the number of lines for
newline-terminated grammar text) and whose literal node is reported at
absolute source line `N = i.lineno`, the remapped Finding's absolute
line equals `N + L - C`. -/
theorem check_grammar_remap_exact (c : CallNode) (a : ArgNode) (rest : List ArgNode)
    (i : InferredNode) (irest : List InferredNode) (g : String)
    (msgs : List Message) (j : Nat) (m : Message)
    (hf : c.func = FuncExpr.name "Lark") (ha : c.args = a :: rest)
    (hi : a.inferred = i :: irest) (hv : i.value = some (PyValue.str g))
    (hok : check_grammar c = Except.ok msgs)
    (hm : (runAll registryFunctions g i)[j]? = some m) :
    ∃ m2 : Message, msgs[j]? = some m2 ∧
      m2.line = i.lineno + m.line - (countNewlines g : Int) := by
  have h := checkGrammarWith_ok registryFunctions c a rest i irest g hf ha hi hv
  have h2 : Except.ok ((runAll registryFunctions g i).map
      (fun m => remapLine m i.lineno (countNewlines g))) = Except.ok msgs :=
    h.symm.trans hok
  have h3 := Except.ok.inj h2
  subst h3
  rw [List.getElem?_map, hm]
  refine ⟨remapLine m i.lineno (countNewlines g), rfl, ?_⟩
  simp only [remapLine]
  omega

/-- Witness for C1 at the end-to-end sample input: the `foo` finding at
relative line 0 with literal-node line 3 and one newline remaps to
absolute line `3 + 0 - 1`. -/
theorem check_grammar_remap_exact_witness :
    sampleCall.func = FuncExpr.name "Lark" ∧
    sampleCall.args = sampleArg :: [] ∧
    sampleArg.inferred = sampleInferred :: [] ∧
    sampleInferred.value = some (PyValue.str sampleGrammar) ∧
    check_grammar sampleCall = Except.ok [fooMapped, barMapped] ∧
    (runAll registryFunctions sampleGrammar sampleInferred)[0]? = some fooRaw ∧
    ∃ m2 : Message, [fooMapped, barMapped][0]? = some m2 ∧
      m2.line = sampleInferred.lineno + fooRaw.line - (countNewlines sampleGrammar : Int) :=
  ⟨rfl, rfl, rfl, rfl, rfl, rfl,
    check_grammar_remap_exact sampleCall sampleArg [] sampleInferred [] sampleGrammar
      [fooMapped, barMapped] 0 fooRaw rfl rfl rfl rfl rfl rfl⟩

/-- C3: the claim says `lark.Lark(...)` is recognized and its grammar
checked; the code instead raises `AttributeError` on exactly that shape,
because the `isinstance` guard at line 31 of `lint.py` tests the `Call`
node itself (never true) instead of its callee, so line 38 reads `.name`
off an `Attribute` node, which has no such field. -/
theorem lark_attribute_call_raises :
    check_grammar larkAttrCall = Except.error PyErr.attributeError := rfl

/-- C4: a call to a bare name other than `Lark` is indeed silently
skipped with no Findings, but a non-matching attribute call such as
`obj.method(...)` raises `AttributeError` instead of being silently
skipped, contradicting the claim for attribute-shaped callees. -/
theorem non_matching_call_behavior :
    check_grammar otherCall = Except.ok [] ∧
    check_grammar methodCall = Except.error PyErr.attributeError :=
  ⟨rfl, rfl⟩

/-- C5 counterexample: Python's `splitlines` also splits on carriage
returns, which the remap's `count("\n")` does not count.  For grammar
text `"x\ry"` resolved from a literal node at line 1 — a valid input:
the literal spans no newline, so its recorded line exceeds the newline
count 0 — the short-name finding for `y` sits at grammar-relative line 1
and the pipeline remaps it to absolute line 2 = 1 + 1 − 0, strictly past
the literal's own line: an out-of-file position whenever the file ends
at line 1. -/
theorem remap_out_of_file_on_cr :
    (⟨"bad-name", crInferred, 1, 0, "y"⟩ : Message) ∈
        runAll registryFunctions crGrammar crInferred ∧
    (countNewlines crGrammar : Int) < crInferred.lineno ∧
    check_grammar crCall =
      Except.ok [⟨"bad-name", crInferred, 1, 0, "x"⟩, ⟨"bad-name", crInferred, 2, 0, "y"⟩] ∧
    (remapLine ⟨"bad-name", crInferred, 1, 0, "y"⟩ crInferred.lineno
        (countNewlines crGrammar)).line = 2 ∧
    ¬((remapLine ⟨"bad-name", crInferred, 1, 0, "y"⟩ crInferred.lineno
        (countNewlines crGrammar)).line ≤ crInferred.lineno) :=
  ⟨by decide, by decide, rfl, rfl, by decide⟩

/-- C5 (amended): for every Finding emitted by the registered checkers
for grammar text `g` resolved from a literal node whose recorded line
`n.lineno` lies strictly beyond the grammar's newline count, the
remapped line is at least 1 — never negative; it moreover stays at most
`n.lineno` (in file) provided every line boundary in `g` is a plain
`\n`, the only boundary `count("\n")` accounts for (for other Python
line boundaries such as `\r` it can exceed `n.lineno`, see the
counterexample); and for empty grammar text the line-count term is zero,
so remapping degenerates to `m.line + N`. -/
theorem remapped_line_in_range (g : String) (n : InferredNode) (m : Message)
    (hm : m ∈ runAll registryFunctions g n)
    (hN : (countNewlines g : Int) < n.lineno) :
    (1 ≤ (remapLine m n.lineno (countNewlines g)).line ∧
        (onlyNewlineBoundaries g = true →
          (remapLine m n.lineno (countNewlines g)).line ≤ n.lineno)) ∧
    ∀ (m2 : Message) (N : Int), (remapLine m2 N (countNewlines "")).line = m2.line + N := by
  obtain ⟨hb0, hb1⟩ := runAll_registry_line_bound hm
  refine ⟨⟨?_, ?_⟩, ?_⟩
  · simp only [remapLine]
    omega
  · intro hnl
    have hsl := splitLines_length g hnl
    simp only [remapLine]
    omega
  · intro m2 N
    have h0 : countNewlines "" = 0 := rfl
    simp [remapLine, h0]

/-- Witness for C5 at the end-to-end sample input, whose grammar text
has `\n` as its only line boundary, so both bounds apply. -/
theorem remapped_line_in_range_witness :
    fooRaw ∈ runAll registryFunctions sampleGrammar sampleInferred ∧
    (countNewlines sampleGrammar : Int) < sampleInferred.lineno ∧
    onlyNewlineBoundaries sampleGrammar = true ∧
    ((1 ≤ (remapLine fooRaw sampleInferred.lineno (countNewlines sampleGrammar)).line ∧
        (remapLine fooRaw sampleInferred.lineno (countNewlines sampleGrammar)).line ≤
          sampleInferred.lineno) ∧
      ∀ (m2 : Message) (N : Int),
        (remapLine m2 N (countNewlines "")).line = m2.line + N) :=
  ⟨by decide, by decide, by decide, by
    have h := remapped_line_in_range sampleGrammar sampleInferred fooRaw (by decide) (by decide)
    exact ⟨⟨h.1.1, h.1.2 (by decide)⟩, h.2⟩⟩

/-- C6: the dispatch loop invokes every registered checker in
registration order and its finding sequence is exactly the ordered
concatenation of the individual checkers' sequences; for the registry as
populated at module load this is `metasyntactic_names` followed by
`short_names`. -/
theorem runAll_is_ordered_concat :
    (∀ (fs : List Checker) (g : String) (n : InferredNode),
        runAll fs g n = (fs.map (fun f => f g n)).flatten) ∧
    ∀ (g : String) (n : InferredNode),
      runAll registryFunctions g n = metasyntactic_names g n ++ short_names g n := by
  constructor
  · intro fs g n
    induction fs with
    | nil => rfl
    | cons f fs ih => simp [runAll, ih]
  · exact runAll_registry

/-- C7: consuming only the first element of the combined finding
sequence invokes exactly the checkers up to and including the one that
produced it — `cs1.length + 1` of them, however many are registered
afterwards — and that element is the head of the full combined
sequence. -/
theorem first_finding_lazy (cs1 : List Checker) (f : Checker) (cs2 : List Checker)
    (g : String) (n : InferredNode)
    (h0 : ∀ f2 ∈ cs1, f2 g n = []) (h1 : f g n ≠ []) :
    firstFinding (cs1 ++ f :: cs2) g n = ((f g n).head?, cs1.length + 1) ∧
    (firstFinding (cs1 ++ f :: cs2) g n).1 = (runAll (cs1 ++ f :: cs2) g n).head? := by
  refine ⟨?_, firstFinding_fst _ _ _⟩
  induction cs1 with
  | nil =>
    simp only [List.nil_append]
    cases hf : f g n with
    | nil => exact absurd hf h1
    | cons m ms => simp [firstFinding, hf]
  | cons f2 fs2 ih =>
    have h2 : f2 g n = [] := h0 f2 (List.mem_cons_self _ _)
    have ih2 := ih (fun f3 h3 => h0 f3 (List.mem_cons_of_mem _ h3))
    simp [firstFinding, h2, ih2]

/-- Witness for C7: with the module's registry, `metasyntactic_names`
produces the first finding on the sample grammar, and `short_names` is
never invoked. -/
theorem first_finding_lazy_witness :
    (∀ f2 ∈ ([] : List Checker), f2 sampleGrammar sampleInferred = []) ∧
    metasyntactic_names sampleGrammar sampleInferred ≠ [] ∧
    (firstFinding ([] ++ metasyntactic_names :: [short_names]) sampleGrammar sampleInferred =
        ((metasyntactic_names sampleGrammar sampleInferred).head?,
          List.length ([] : List Checker) + 1) ∧
      (firstFinding ([] ++ metasyntactic_names :: [short_names]) sampleGrammar
          sampleInferred).1 =
        (runAll ([] ++ metasyntactic_names :: [short_names]) sampleGrammar
          sampleInferred).head?) :=
  ⟨fun f2 h => absurd h (List.not_mem_nil f2), by decide,
    first_finding_lazy [] metasyntactic_names [short_names] sampleGrammar sampleInferred
      (fun f2 h => absurd h (List.not_mem_nil f2)) (by decide)⟩

/-- C8 counterexample: on grammar text `"foo: \"bar\"\n"` from a literal
node at line `N = 3` with `C = 1`, the pipeline reports both findings at
absolute line 2 (`3 + 0 - 1`), so the claim's absolute line 3 is false. -/
theorem end_to_end_line_three_false :
    check_grammar sampleCall = Except.ok [fooMapped, barMapped] ∧
    fooMapped.line = 2 ∧ barMapped.line = 2 ∧ (2 : Int) ≠ 3 :=
  ⟨rfl, rfl, rfl, by decide⟩

/-- C8 (amended): grammar text `"foo: \"bar\"\n"` run through the
metasyntactic-name check yields exactly two Findings, for `foo` and
`bar`, both with grammar-relative line 0, at columns 0 and 6; after
remapping with `N = 3, C = 1`, both report absolute line 2
(`= 3 + 0 - 1`). -/
theorem end_to_end_scenario :
    metasyntactic_names sampleGrammar sampleInferred = [fooRaw, barRaw] ∧
    fooRaw.line = 0 ∧ fooRaw.col = 0 ∧ fooRaw.identifier = "foo" ∧
    barRaw.line = 0 ∧ barRaw.col = 6 ∧ barRaw.identifier = "bar" ∧
    sampleInferred.lineno = 3 ∧ countNewlines sampleGrammar = 1 ∧
    check_grammar sampleCall = Except.ok [fooMapped, barMapped] ∧
    fooMapped.line = 2 ∧ barMapped.line = 2 :=
  ⟨rfl, rfl, rfl, rfl, rfl, rfl, rfl, rfl, rfl, rfl, rfl, rfl⟩

/-- C9: remapping replaces only the `line` field of a Finding; the
problem identifier, context node, column offset and interpolated
identifier all pass through unchanged. -/
theorem remap_changes_only_line (m : Message) (N : Int) (C : Nat) :
    (remapLine m N C).problem = m.problem ∧
    (remapLine m N C).node = m.node ∧
    (remapLine m N C).col = m.col ∧
    (remapLine m N C).identifier = m.identifier ∧
    (remapLine m N C).line = m.line + N - (C : Int) :=
  ⟨rfl, rfl, rfl, rfl, rfl⟩

/-- C10: for a matching grammar-construction call, the scanner's result
is determined by the first inference candidate `i` of the first
positional argument alone: the checkers receive `i` as context node and
the remapping line `N` is `i.lineno`.  The right-hand side mentions
neither the remaining inference candidates `irest`, the remaining
arguments `rest`, nor the call node's own `lineno`, so none of them can
influence the result. -/
theorem checker_context_is_inferred_node (fs : List Checker) (c : CallNode)
    (a : ArgNode) (rest : List ArgNode) (i : InferredNode) (irest : List InferredNode)
    (g : String)
    (hf : c.func = FuncExpr.name "Lark") (ha : c.args = a :: rest)
    (hi : a.inferred = i :: irest) (hv : i.value = some (PyValue.str g)) :
    checkGrammarWith fs c =
      Except.ok ((runAll fs g i).map (fun m => remapLine m i.lineno (countNewlines g))) :=
  checkGrammarWith_ok fs c a rest i irest g hf ha hi hv

/-- Witness for C10 at the end-to-end sample input. -/
theorem checker_context_is_inferred_node_witness :
    sampleCall.func = FuncExpr.name "Lark" ∧
    sampleCall.args = sampleArg :: [] ∧
    sampleArg.inferred = sampleInferred :: [] ∧
    sampleInferred.value = some (PyValue.str sampleGrammar) ∧
    checkGrammarWith registryFunctions sampleCall =
      Except.ok ((runAll registryFunctions sampleGrammar sampleInferred).map
        (fun m => remapLine m sampleInferred.lineno (countNewlines sampleGrammar))) :=
  ⟨rfl, rfl, rfl, rfl,
    checker_context_is_inferred_node registryFunctions sampleCall sampleArg [] sampleInferred
      [] sampleGrammar rfl rfl rfl rfl⟩

end LarkLint
